import Mathlib

/-!
Shallow embedding of `pina/condition.py` (class `Condition`).

Python values relevant to the constructor are modelled by `PyVal`:
`LabelTensor` instances, `Location` instances, callables, Python lists,
floats and strings.  Keyword-argument dictionaries are association lists
with string keys; Python guarantees the keys of a `dict` are distinct, so
theorems that need it take a `Nodup` hypothesis on the key list.

`Condition.init` is the translation of `Condition.__init__`:
it pops `data_weight` (default `1.0`), rejects positional arguments
(`ValueError`, the arity error), compares the sorted key list against the
three allowed key sets (`ValueError`, the shape error), runs the three
`isinstance` checks, normalizes `function` into a list and checks every
element is callable, and finally performs the `setattr` loop.  The
attributes of the resulting object are modelled as `Option PyVal` fields:
`none` means the slot was never assigned, so reading it raises
`AttributeError` in Python.
-/

namespace Pina

/-- Python values, as far as `Condition.__init__` can distinguish them. -/
inductive PyVal : Type where
  | labelTensor : Nat → PyVal
  | location : Nat → PyVal
  | callableFn : Nat → PyVal
  | pyList : List PyVal → PyVal
  | pyFloat : Rat → PyVal
  | pyStr : String → PyVal
  deriving Repr

/-- The classes `Condition.__init__` tests with `isinstance`. -/
inductive PyClass : Type where
  | labelTensorC : PyClass
  | locationC : PyClass
  | listC : PyClass
  deriving Repr, DecidableEq

/-- Python `isinstance` restricted to the classes the constructor uses. -/
def pyIsInstance : PyVal → PyClass → Bool
  | .labelTensor _, .labelTensorC => true
  | .location _, .locationC => true
  | .pyList _, .listC => true
  | _, _ => false

/-- Python `callable`. -/
def pyCallable : PyVal → Bool
  | .callableFn _ => true
  | _ => false

/-- The elements a Python `for`/`enumerate` loop sees; only ever applied
to values that are lists. -/
def pyElems : PyVal → List PyVal
  | .pyList l => l
  | _ => []

/-- Python `dict` lookup on an association list (keys are unique in a
real `dict`, so first-match semantics agree with `dict` semantics). -/
def dlookup : List (String × PyVal) → String → Option PyVal
  | [], _ => none
  | (k, v) :: rest, key => if k = key then some v else dlookup rest key

/-- The dictionary left after `kwargs.pop(key, default)`. -/
def removeKey (d : List (String × PyVal)) (key : String) : List (String × PyVal) :=
  d.filter (fun p => p.1 != key)

/-- Python `d[key] = v` for a key already present (keeps position), or
appends when absent; in the constructor it is only used on a present key. -/
def dictSet : List (String × PyVal) → String → PyVal → List (String × PyVal)
  | [], key, v => [(key, v)]
  | (k, w) :: rest, key, v =>
    if k = key then (key, v) :: rest else (k, w) :: dictSet rest key v

/-- The distinguishable failures `Condition.__init__` can raise.
`arityValueError` is the `ValueError` raised for positional arguments,
`shapeValueError` the `ValueError` for an invalid key set (it carries the
offending key list, as the message interpolates `kwargs.keys()`),
`fieldTypeError` a `TypeError` naming the offending field and the expected
capability, and `functionElemTypeError` the `TypeError` naming the index of
a non-callable element of `function`. -/
inductive CondError : Type where
  | arityValueError : CondError
  | shapeValueError : List String → CondError
  | fieldTypeError : String → String → CondError
  | functionElemTypeError : Nat → CondError
  deriving Repr

/-- Code-point lexicographic comparison on character lists; this is the
order Python `sorted` uses on strings. -/
def strLeAux : List Char → List Char → Bool
  | [], _ => true
  | _ :: _, [] => false
  | a :: as, b :: bs =>
    if a.toNat < b.toNat then true
    else if b.toNat < a.toNat then false
    else strLeAux as bs

/-- Python string comparison `a <= b`. -/
def strLe (a b : String) : Bool :=
  strLeAux a.data b.data

/-- `strLe` as a relation, for the sorting lemmas. -/
def strLeP (a b : String) : Prop :=
  strLe a b = true

instance : DecidableRel strLeP := fun a b => by
  unfold strLeP
  infer_instance

/-- Python `sorted` on a list of strings. -/
def sortStrings (l : List String) : List String :=
  List.insertionSort strLeP l

/-- `sorted(kwargs.keys())`. -/
def sortedKeys (d : List (String × PyVal)) : List String :=
  sortStrings (d.map Prod.fst)

/-- The state of a constructed `Condition` object.  The five fields are
the `__slots__`; an `Option` field equal to `none` models a slot that was
never assigned (reading it raises `AttributeError`). -/
structure Condition : Type where
  input_points : Option PyVal
  output_points : Option PyVal
  location : Option PyVal
  function : Option PyVal
  data_weight : PyVal
  deriving Repr

/-- `Condition._dictvalue_isinstance`: `True` when the key is absent,
otherwise `isinstance` on the stored value. -/
def _dictvalue_isinstance (dict_ : List (String × PyVal)) (key_ : String)
    (class_ : PyClass) : Bool :=
  match dlookup dict_ key_ with
  | none => true
  | some v => pyIsInstance v class_

/-- Index of the first non-callable element, starting the count at `i`;
models the `enumerate` loop over `kwargs['function']`. -/
def firstNonCallable : List PyVal → Nat → Option Nat
  | [], _ => none
  | f :: rest, i => if pyCallable f then firstNonCallable rest (i + 1) else some i

/-- The final `setattr` loop: every key still in `kwargs` is assigned to
the slot of the same name, plus the previously popped `data_weight`. -/
def mkCondition (kw : List (String × PyVal)) (dw : PyVal) : Condition :=
  { input_points := dlookup kw "input_points"
    output_points := dlookup kw "output_points"
    location := dlookup kw "location"
    function := dlookup kw "function"
    data_weight := dw }

/-- `Condition.__init__(*args, **kwargs)`.  Returns the constructed object
or the exception raised. -/
def Condition.init (args : List PyVal) (kwargs : List (String × PyVal)) :
    Except CondError Condition :=
  let data_weight := (dlookup kwargs "data_weight").getD (.pyFloat 1)
  let kw := removeKey kwargs "data_weight"
  if args.length ≠ 0 then
    .error .arityValueError
  else if sortedKeys kw ≠ sortStrings ["input_points", "output_points"] ∧
      sortedKeys kw ≠ sortStrings ["location", "function"] ∧
      sortedKeys kw ≠ sortStrings ["input_points", "function"] then
    .error (.shapeValueError (kw.map Prod.fst))
  else if _dictvalue_isinstance kw "input_points" .labelTensorC = false then
    .error (.fieldTypeError "input_points" "torch.Tensor")
  else if _dictvalue_isinstance kw "output_points" .labelTensorC = false then
    .error (.fieldTypeError "output_points" "torch.Tensor")
  else if _dictvalue_isinstance kw "location" .locationC = false then
    .error (.fieldTypeError "location" "Location")
  else
    match dlookup kw "function" with
    | none => .ok (mkCondition kw data_weight)
    | some f =>
      let fnorm := if pyIsInstance f .listC then f else .pyList [f]
      match firstNonCallable (pyElems fnorm) 0 with
      | some i => .error (.functionElemTypeError i)
      | none => .ok (mkCondition (dictSet kw "function" fnorm) data_weight)

/-- A "correctly-typed" `function` value in the sense of the spec: if the
key is present, every element of its normalized (singleton-wrapped) list
is callable.  Used to state hypotheses about valid constructions. -/
def functionValueOk (d : List (String × PyVal)) : Bool :=
  match dlookup d "function" with
  | none => true
  | some f =>
    (pyElems (if pyIsInstance f .listC then f else .pyList [f])).all pyCallable

/-! ### Properties of the string order used by `sorted` -/

theorem strLeAux_total : ∀ xs ys : List Char, strLeAux xs ys = true ∨ strLeAux ys xs = true
  | [], _ => by left; rfl
  | _ :: _, [] => by right; rfl
  | a :: as, b :: bs => by
    rcases Nat.lt_trichotomy a.toNat b.toNat with h | h | h
    · left
      simp [strLeAux, h]
    · rcases strLeAux_total as bs with ih | ih
      · left
        simp [strLeAux, h, ih]
      · right
        simp [strLeAux, h.symm, ih]
    · right
      simp [strLeAux, h]

theorem strLeAux_trans : ∀ xs ys zs : List Char, strLeAux xs ys = true →
    strLeAux ys zs = true → strLeAux xs zs = true
  | [], _, _, _, _ => rfl
  | _ :: _, [], _, h, _ => by simp [strLeAux] at h
  | _ :: _, _ :: _, [], _, h => by simp [strLeAux] at h
  | a :: as, b :: bs, c :: cs, h₁, h₂ => by
    simp only [strLeAux] at h₁ h₂ ⊢
    split at h₁
    · split at h₂
      · split
        · rfl
        · split
          · exfalso
            omega
          · exfalso
            omega
      · split at h₂
        · exact absurd h₂ (by simp)
        · split
          · rfl
          · split
            · exfalso
              omega
            · exfalso
              omega
    · split at h₁
      · exact absurd h₁ (by simp)
      · split at h₂
        · split
          · rfl
          · split
            · exfalso
              omega
            · exfalso
              omega
        · split at h₂
          · exact absurd h₂ (by simp)
          · split
            · rfl
            · split
              · exfalso
                omega
              · exact strLeAux_trans as bs cs h₁ h₂

theorem strLeAux_antisymm : ∀ xs ys : List Char, strLeAux xs ys = true →
    strLeAux ys xs = true → xs = ys
  | [], [], _, _ => rfl
  | [], _ :: _, _, h => by simp [strLeAux] at h
  | _ :: _, [], h, _ => by simp [strLeAux] at h
  | a :: as, b :: bs, h₁, h₂ => by
    simp only [strLeAux] at h₁ h₂
    split at h₁
    · split at h₂
      · exfalso
        omega
      · exact absurd h₂ (by simp)
    · split at h₁
      · exact absurd h₁ (by simp)
      · split at h₂
        · exfalso
          omega
        · have hab : a = b :=
            Char.eq_of_val_eq (UInt32.toNat.inj (show a.toNat = b.toNat by omega))
          rw [hab, strLeAux_antisymm as bs h₁ h₂]

instance : IsTotal String strLeP :=
  ⟨fun a b => strLeAux_total a.data b.data⟩

instance : IsTrans String strLeP :=
  ⟨fun a b c => strLeAux_trans a.data b.data c.data⟩

instance : IsAntisymm String strLeP :=
  ⟨fun a b h₁ h₂ => congrArg String.mk (strLeAux_antisymm a.data b.data h₁ h₂)⟩

/-! ### Dictionary lemmas -/

theorem dlookup_eq_none_iff (d : List (String × PyVal)) (k : String) :
    dlookup d k = none ↔ k ∉ d.map Prod.fst := by
  induction d with
  | nil => simp [dlookup]
  | cons p rest ih =>
    obtain ⟨k', v⟩ := p
    by_cases h : k' = k
    · subst h
      simp [dlookup]
    · simp only [dlookup, if_neg h, ih, List.map_cons, List.mem_cons]
      constructor
      · intro hn hor
        rcases hor with hor | hor
        · exact h hor.symm
        · exact hn hor
      · intro hn
        intro hmem
        exact hn (Or.inr hmem)

theorem dlookup_isSome_iff (d : List (String × PyVal)) (k : String) :
    (dlookup d k).isSome = true ↔ k ∈ d.map Prod.fst := by
  rw [Option.isSome_iff_ne_none, ne_eq, dlookup_eq_none_iff]
  exact not_not

theorem map_fst_removeKey (d : List (String × PyVal)) (key : String) :
    (removeKey d key).map Prod.fst = (d.map Prod.fst).filter (fun s => s != key) := by
  induction d with
  | nil => rfl
  | cons p rest ih =>
    obtain ⟨k', v⟩ := p
    simp only [removeKey] at ih ⊢
    by_cases h : k' = key
    · subst h
      rw [List.filter_cons_of_neg (by simp), List.map_cons,
        List.filter_cons_of_neg (by simp)]
      exact ih
    · rw [List.filter_cons_of_pos (by simpa using h), List.map_cons, List.map_cons,
        List.filter_cons_of_pos (by simpa using h), ih]

theorem dlookup_removeKey_ne (d : List (String × PyVal)) (key k : String)
    (h : k ≠ key) : dlookup (removeKey d key) k = dlookup d k := by
  induction d with
  | nil => rfl
  | cons p rest ih =>
    obtain ⟨k', v⟩ := p
    simp only [removeKey] at ih ⊢
    by_cases hk : k' = key
    · subst hk
      rw [List.filter_cons_of_neg (by simp), ih]
      have hne : ¬ k' = k := fun hh => h (hh ▸ rfl)
      simp [dlookup, hne]
    · rw [List.filter_cons_of_pos (by simpa using hk)]
      by_cases hkk : k' = k
      · subst hkk
        simp [dlookup]
      · simp [dlookup, hkk, ih]

theorem dlookup_removeKey_self (d : List (String × PyVal)) (key : String) :
    dlookup (removeKey d key) key = none := by
  rw [dlookup_eq_none_iff, map_fst_removeKey]
  intro hmem
  rcases List.mem_filter.mp hmem with ⟨_, hne⟩
  simp at hne

theorem removeKey_removeKey (d : List (String × PyVal)) (key : String) :
    removeKey (removeKey d key) key = removeKey d key := by
  unfold removeKey
  rw [List.filter_filter]
  simp

theorem nodup_keys_removeKey (d : List (String × PyVal)) (key : String)
    (h : (d.map Prod.fst).Nodup) : ((removeKey d key).map Prod.fst).Nodup := by
  rw [map_fst_removeKey]
  exact h.filter _

theorem dlookup_dictSet_self (d : List (String × PyVal)) (key : String) (v : PyVal) :
    dlookup (dictSet d key v) key = some v := by
  induction d with
  | nil => simp [dictSet, dlookup]
  | cons p rest ih =>
    obtain ⟨k', w⟩ := p
    by_cases h : k' = key
    · subst h
      simp [dictSet, dlookup]
    · simp [dictSet, dlookup, h, ih]

theorem dlookup_dictSet_ne (d : List (String × PyVal)) (key k : String) (v : PyVal)
    (h : k ≠ key) : dlookup (dictSet d key v) k = dlookup d k := by
  induction d with
  | nil =>
    have hne : ¬ key = k := fun hh => h hh.symm
    simp [dictSet, dlookup, hne]
  | cons p rest ih =>
    obtain ⟨k', w⟩ := p
    by_cases hk : k' = key
    · subst hk
      have hne : ¬ k' = k := fun hh => h hh.symm
      simp [dictSet, dlookup, hne]
    · simp [dictSet, dlookup, hk, ih]

/-! ### Sorting lemmas -/

theorem sortStrings_perm (l : List String) : List.Perm (sortStrings l) l :=
  List.perm_insertionSort strLeP l

theorem sortStrings_eq_iff (l₁ l₂ : List String) :
    sortStrings l₁ = sortStrings l₂ ↔ List.Perm l₁ l₂ := by
  constructor
  · intro h
    exact (sortStrings_perm l₁).symm.trans (h ▸ sortStrings_perm l₂)
  · intro h
    exact List.eq_of_perm_of_sorted
      (((sortStrings_perm l₁).trans h).trans (sortStrings_perm l₂).symm)
      (List.sorted_insertionSort strLeP l₁) (List.sorted_insertionSort strLeP l₂)

theorem sortStrings_eq_of_nodup_toFinset (l₁ l₂ : List String)
    (h₁ : l₁.Nodup) (h₂ : l₂.Nodup) (h : l₁.toFinset = l₂.toFinset) :
    sortStrings l₁ = sortStrings l₂ :=
  (sortStrings_eq_iff l₁ l₂).mpr (List.perm_of_nodup_nodup_toFinset_eq h₁ h₂ h)

theorem toFinset_eq_of_sortStrings_eq (l₁ l₂ : List String)
    (h : sortStrings l₁ = sortStrings l₂) : l₁.toFinset = l₂.toFinset :=
  List.toFinset_eq_of_perm l₁ l₂ ((sortStrings_eq_iff l₁ l₂).mp h)

/-! ### Lemmas about the callable-check loop -/

theorem firstNonCallable_eq_none_iff (l : List PyVal) (i : Nat) :
    firstNonCallable l i = none ↔ ∀ g ∈ l, pyCallable g = true := by
  induction l generalizing i with
  | nil => simp [firstNonCallable]
  | cons f rest ih =>
    by_cases h : pyCallable f
    · simp [firstNonCallable, h, ih]
    · simp only [firstNonCallable, if_neg h]
      constructor
      · intro hh
        exact absurd hh (Option.some_ne_none i)
      · intro hall
        exact absurd (hall f (List.mem_cons_self f rest)) h

theorem firstNonCallable_first (l : List PyVal) (i j : Nat) (hj : j < l.length)
    (hbad : pyCallable (l.get ⟨j, hj⟩) = false)
    (hfirst : ∀ g ∈ l.take j, pyCallable g = true) :
    firstNonCallable l i = some (i + j) := by
  induction l generalizing i j with
  | nil => cases hj
  | cons f rest ih =>
    cases j with
    | zero =>
      simp only [List.get] at hbad
      simp [firstNonCallable, hbad]
    | succ j =>
      have hf : pyCallable f = true := hfirst f (by simp)
      have : firstNonCallable rest (i + 1) = some ((i + 1) + j) :=
        ih (i + 1) j (Nat.lt_of_succ_lt_succ hj) hbad
          (fun g hg => hfirst g (List.mem_cons_of_mem f hg))
      rw [firstNonCallable, if_pos hf, this]
      congr 1
      omega

theorem toFinset_pair (a b : String) : ([a, b] : List String).toFinset = {a, b} := by
  simp

/-- Evaluation of the constructor once the arity, shape and `isinstance`
checks all pass: only the `function` normalization and callable check
remain. -/
theorem init_eval_checks_passed (kwargs : List (String × PyVal))
    (hshape : sortedKeys (removeKey kwargs "data_weight") =
        sortStrings ["input_points", "output_points"] ∨
      sortedKeys (removeKey kwargs "data_weight") = sortStrings ["location", "function"] ∨
      sortedKeys (removeKey kwargs "data_weight") = sortStrings ["input_points", "function"])
    (hip : _dictvalue_isinstance (removeKey kwargs "data_weight") "input_points"
      .labelTensorC = true)
    (hop : _dictvalue_isinstance (removeKey kwargs "data_weight") "output_points"
      .labelTensorC = true)
    (hloc : _dictvalue_isinstance (removeKey kwargs "data_weight") "location"
      .locationC = true) :
    Condition.init [] kwargs =
      (match dlookup (removeKey kwargs "data_weight") "function" with
       | none => .ok (mkCondition (removeKey kwargs "data_weight")
           ((dlookup kwargs "data_weight").getD (.pyFloat 1)))
       | some f =>
         match firstNonCallable (pyElems (if pyIsInstance f .listC then f
             else .pyList [f])) 0 with
         | some i => .error (.functionElemTypeError i)
         | none => .ok (mkCondition
             (dictSet (removeKey kwargs "data_weight") "function"
               (if pyIsInstance f .listC then f else .pyList [f]))
             ((dlookup kwargs "data_weight").getD (.pyFloat 1)))) := by
  simp only [Condition.init]
  rw [if_neg (by simp), if_neg (fun hc => by
      rcases hshape with h | h | h
      · exact hc.1 h
      · exact hc.2.1 h
      · exact hc.2.2 h),
    if_neg (by simp [hip]), if_neg (by simp [hop]), if_neg (by simp [hloc])]

/-- Inversion of a successful construction: either `function` was absent
and every remaining key went straight to the slots, or it was present,
its normalization passed the callable check, and the normalized value was
written back before the `setattr` loop. -/
theorem init_ok_inversion (kwargs : List (String × PyVal)) (c : Condition)
    (h : Condition.init [] kwargs = .ok c) :
    (dlookup (removeKey kwargs "data_weight") "function" = none ∧
      c = mkCondition (removeKey kwargs "data_weight")
        ((dlookup kwargs "data_weight").getD (.pyFloat 1))) ∨
    (∃ f, dlookup (removeKey kwargs "data_weight") "function" = some f ∧
      firstNonCallable (pyElems (if pyIsInstance f .listC then f else .pyList [f])) 0
        = none ∧
      c = mkCondition (dictSet (removeKey kwargs "data_weight") "function"
          (if pyIsInstance f .listC then f else .pyList [f]))
        ((dlookup kwargs "data_weight").getD (.pyFloat 1))) := by
  simp only [Condition.init] at h
  rw [if_neg (by simp)] at h
  split at h
  · exact Except.noConfusion h
  · split at h
    · exact Except.noConfusion h
    · split at h
      · exact Except.noConfusion h
      · split at h
        · exact Except.noConfusion h
        · split at h
          · rename_i hfn
            exact Or.inl ⟨hfn, (Except.ok.inj h).symm⟩
          · rename_i f hfn
            split at h
            · exact Except.noConfusion h
            · rename_i hcall
              exact Or.inr ⟨f, hfn, hcall, (Except.ok.inj h).symm⟩

/-- Popping `data_weight` is the only place the constructor looks at it:
construction behaves exactly as if `data_weight` were absent, with the
popped value written into the final object. -/
theorem init_removeKey_data_weight (args : List PyVal)
    (kwargs : List (String × PyVal)) :
    Condition.init args kwargs =
      (Condition.init args (removeKey kwargs "data_weight")).map
        (fun c => { c with
          data_weight := (dlookup kwargs "data_weight").getD (.pyFloat 1) }) := by
  simp only [Condition.init]
  rw [dlookup_removeKey_self, removeKey_removeKey]
  split
  · rfl
  · split
    · rfl
    · split
      · rfl
      · split
        · rfl
        · split
          · rfl
          · split
            · rfl
            · split
              · rfl
              · rfl

/-! ### Claim theorems -/

/-- C3: any call supplying at least one positional argument fails with the
arity `ValueError`, whatever the keyword fields are; only the
`data_weight` pop precedes this check and it cannot alter the outcome. -/
theorem claim_C3_positional_rejected (args : List PyVal)
    (kwargs : List (String × PyVal)) (h : args ≠ []) :
    Condition.init args kwargs = .error .arityValueError := by
  have hlen : args.length ≠ 0 := fun hl => h (List.length_eq_zero.mp hl)
  simp only [Condition.init]
  rw [if_pos hlen]

/-- C3 witness: a positional argument next to perfectly valid keyword
fields still raises the arity error. -/
theorem claim_C3_witness :
    Condition.init [PyVal.labelTensor 0]
      [("input_points", PyVal.labelTensor 0), ("output_points", PyVal.labelTensor 1)] =
      .error .arityValueError :=
  claim_C3_positional_rejected _ _ (by simp)

/-- C1: whenever the key set left after removing `data_weight` is not
equal, as a set, to one of the three allowed key sets, construction fails
with the shape `ValueError` carrying the offending key list; only set
equality matters, so key order is irrelevant. -/
theorem claim_C1_invalid_keyset (kwargs : List (String × PyVal))
    (h₁ : ((removeKey kwargs "data_weight").map Prod.fst).toFinset ≠
      ({"input_points", "output_points"} : Finset String))
    (h₂ : ((removeKey kwargs "data_weight").map Prod.fst).toFinset ≠
      ({"location", "function"} : Finset String))
    (h₃ : ((removeKey kwargs "data_weight").map Prod.fst).toFinset ≠
      ({"input_points", "function"} : Finset String)) :
    Condition.init [] kwargs =
      .error (.shapeValueError ((removeKey kwargs "data_weight").map Prod.fst)) := by
  simp only [Condition.init]
  rw [if_neg (by simp)]
  rw [if_pos]
  refine ⟨fun heq => h₁ ?_, fun heq => h₂ ?_, fun heq => h₃ ?_⟩
  · have := toFinset_eq_of_sortStrings_eq _ _ heq
    rwa [toFinset_pair] at this
  · have := toFinset_eq_of_sortStrings_eq _ _ heq
    rwa [toFinset_pair] at this
  · have := toFinset_eq_of_sortStrings_eq _ _ heq
    rwa [toFinset_pair] at this

/-- C1 witness: the subset `{input_points}` alone is rejected with the
shape error naming that key set. -/
theorem claim_C1_witness :
    Condition.init [] [("input_points", PyVal.labelTensor 0)] =
      .error (.shapeValueError ["input_points"]) :=
  claim_C1_invalid_keyset _ (by decide) (by decide) (by decide)

/-- C9: construction is a pure function of its arguments: two
constructions from identical inputs yield objects with equal observable
field values; no hidden shared state can make them differ. -/
theorem claim_C9_deterministic (args : List PyVal) (kwargs : List (String × PyVal))
    (c₁ c₂ : Condition) (h₁ : Condition.init args kwargs = .ok c₁)
    (h₂ : Condition.init args kwargs = .ok c₂) :
    c₁.input_points = c₂.input_points ∧ c₁.output_points = c₂.output_points ∧
    c₁.location = c₂.location ∧ c₁.function = c₂.function ∧
    c₁.data_weight = c₂.data_weight := by
  have hc : c₁ = c₂ := Except.ok.inj (h₁.symm.trans h₂)
  subst hc
  exact ⟨rfl, rfl, rfl, rfl, rfl⟩

/-- C9 witness: two identical supervised constructions agree on every
observable field. -/
theorem claim_C9_witness :
    ∃ c : Condition,
      Condition.init [] [("input_points", PyVal.labelTensor 0),
        ("output_points", PyVal.labelTensor 1)] = .ok c ∧
      c.input_points = c.input_points ∧ c.output_points = c.output_points ∧
      c.location = c.location ∧ c.function = c.function ∧
      c.data_weight = c.data_weight := by
  refine ⟨_, by rfl, ?_⟩
  exact claim_C9_deterministic [] [("input_points", PyVal.labelTensor 0),
    ("output_points", PyVal.labelTensor 1)] _ _ (by rfl) (by rfl)

/-- C8: a supplied `data_weight` of any type is stored verbatim —
construction behaves exactly as without it except that the stored weight
is the supplied value — and an omitted `data_weight` defaults to `1.0`. -/
theorem claim_C8_data_weight_verbatim (kwargs : List (String × PyVal)) :
    (∀ w, dlookup kwargs "data_weight" = some w →
      Condition.init [] kwargs =
        (Condition.init [] (removeKey kwargs "data_weight")).map
          (fun c => { c with data_weight := w })) ∧
    (dlookup kwargs "data_weight" = none →
      ∀ c, Condition.init [] kwargs = .ok c → c.data_weight = PyVal.pyFloat 1) := by
  constructor
  · intro w hw
    rw [init_removeKey_data_weight [] kwargs, hw]
    rfl
  · intro hnone c hc
    rcases init_ok_inversion kwargs c hc with ⟨_, hc'⟩ | ⟨f, _, _, hc'⟩ <;>
      rw [hc'] <;> simp [mkCondition, hnone]

/-- C8 witness: `data_weight = 2.5` is stored verbatim (construction is
the weight-free construction with `2.5` written into the slot). -/
theorem claim_C8_witness :
    Condition.init [] [("input_points", PyVal.labelTensor 0),
        ("output_points", PyVal.labelTensor 1), ("data_weight", PyVal.pyFloat 2.5)] =
      (Condition.init [] (removeKey [("input_points", PyVal.labelTensor 0),
        ("output_points", PyVal.labelTensor 1), ("data_weight", PyVal.pyFloat 2.5)]
        "data_weight")).map
        (fun c => { c with data_weight := PyVal.pyFloat 2.5 }) :=
  (claim_C8_data_weight_verbatim _).1 (PyVal.pyFloat 2.5) rfl

/-- C4: in a successful construction, a `function` value that was a single
callable is stored as the one-element list holding exactly it, and a
`function` value that was already a list is stored with its elements and
order unchanged. -/
theorem claim_C4_function_normalization (kwargs : List (String × PyVal))
    (c : Condition) (f : PyVal) (h : Condition.init [] kwargs = .ok c)
    (hf : dlookup (removeKey kwargs "data_weight") "function" = some f) :
    (∀ n, f = PyVal.callableFn n → c.function = some (PyVal.pyList [f])) ∧
    (∀ gs, f = PyVal.pyList gs → c.function = some (PyVal.pyList gs)) := by
  rcases init_ok_inversion kwargs c h with ⟨hnone, _⟩ | ⟨f', hf', _, hc⟩
  · rw [hnone] at hf
    exact Option.noConfusion hf
  · have hff : f' = f := Option.some.inj (hf'.symm.trans hf)
    subst hff
    subst hc
    constructor
    · intro n hfn
      subst hfn
      show dlookup (dictSet _ "function" _) "function" = _
      rw [dlookup_dictSet_self]
      rfl
    · intro gs hfl
      subst hfl
      show dlookup (dictSet _ "function" _) "function" = _
      rw [dlookup_dictSet_self]
      rfl

/-- C4 witness: a single callable is wrapped into a one-element list, and
an already-list value of two callables is kept as is, in order. -/
theorem claim_C4_witness :
    (∃ c : Condition,
      Condition.init [] [("location", PyVal.location 0),
        ("function", PyVal.callableFn 7)] = .ok c ∧
      c.function = some (PyVal.pyList [PyVal.callableFn 7])) ∧
    (∃ c : Condition,
      Condition.init [] [("location", PyVal.location 0),
        ("function", PyVal.pyList [PyVal.callableFn 1, PyVal.callableFn 2])] = .ok c ∧
      c.function = some (PyVal.pyList [PyVal.callableFn 1, PyVal.callableFn 2])) := by
  constructor
  · refine ⟨_, by rfl, ?_⟩
    exact (claim_C4_function_normalization [("location", PyVal.location 0),
      ("function", PyVal.callableFn 7)] _ _ (by rfl) (by rfl)).1 7 rfl
  · refine ⟨_, by rfl, ?_⟩
    exact (claim_C4_function_normalization [("location", PyVal.location 0),
      ("function", PyVal.pyList [PyVal.callableFn 1, PyVal.callableFn 2])] _ _
      (by rfl) (by rfl)).2 [PyVal.callableFn 1, PyVal.callableFn 2] rfl

/-- C10: after a successful construction, every slot whose key was not
supplied (after the `data_weight` pop) is unassigned — reading it raises
`AttributeError`, modelled by `none` — and the `__slots__` declaration
closes the attribute set to the five modelled fields. -/
theorem claim_C10_unset_slots (kwargs : List (String × PyVal)) (c : Condition)
    (h : Condition.init [] kwargs = .ok c) :
    ("input_points" ∉ (removeKey kwargs "data_weight").map Prod.fst →
      c.input_points = none) ∧
    ("output_points" ∉ (removeKey kwargs "data_weight").map Prod.fst →
      c.output_points = none) ∧
    ("location" ∉ (removeKey kwargs "data_weight").map Prod.fst →
      c.location = none) ∧
    ("function" ∉ (removeKey kwargs "data_weight").map Prod.fst →
      c.function = none) := by
  rcases init_ok_inversion kwargs c h with ⟨hnone, hc⟩ | ⟨f, hf, _, hc⟩ <;> subst hc
  · refine ⟨fun hm => ?_, fun hm => ?_, fun hm => ?_, fun hm => ?_⟩ <;>
      exact (dlookup_eq_none_iff _ _).mpr hm
  · refine ⟨fun hm => ?_, fun hm => ?_, fun hm => ?_, fun hm => ?_⟩
    · show dlookup (dictSet _ "function" _) "input_points" = none
      rw [dlookup_dictSet_ne _ _ _ _ (by decide)]
      exact (dlookup_eq_none_iff _ _).mpr hm
    · show dlookup (dictSet _ "function" _) "output_points" = none
      rw [dlookup_dictSet_ne _ _ _ _ (by decide)]
      exact (dlookup_eq_none_iff _ _).mpr hm
    · show dlookup (dictSet _ "function" _) "location" = none
      rw [dlookup_dictSet_ne _ _ _ _ (by decide)]
      exact (dlookup_eq_none_iff _ _).mpr hm
    · exact absurd ((dlookup_isSome_iff _ _).mp (by rw [hf]; rfl)) hm

/-- C10 witness: a supervised object has no `location` or `function`
attribute (and, vacuously here, no unset `input_points`/`output_points`). -/
theorem claim_C10_witness :
    ∃ c : Condition,
      Condition.init [] [("input_points", PyVal.labelTensor 0),
        ("output_points", PyVal.labelTensor 1)] = .ok c ∧
      c.location = none ∧ c.function = none :=
  by
  refine ⟨_, by rfl, ?_, ?_⟩
  · exact (claim_C10_unset_slots [("input_points", PyVal.labelTensor 0),
      ("output_points", PyVal.labelTensor 1)] _ (by rfl)).2.2.1 (by decide)
  · exact (claim_C10_unset_slots [("input_points", PyVal.labelTensor 0),
      ("output_points", PyVal.labelTensor 1)] _ (by rfl)).2.2.2 (by decide)

/-- C5 counterexample: supplying `function = []` (an empty list) together
with a `location` succeeds, and the stored `function` attribute is the
empty list — so a successful construction's `function` is NOT always
non-empty, contrary to the claim. -/
theorem claim_C5_counterexample :
    Condition.init [] [("location", PyVal.location 0), ("function", PyVal.pyList [])] =
      .ok { input_points := none, output_points := none,
            location := some (PyVal.location 0),
            function := some (PyVal.pyList []), data_weight := PyVal.pyFloat 1 } := by
  rfl

/-- C5 (amended): in every successful construction with `function`
present, the stored `function` attribute is an ordered sequence all of
whose elements are callable; it can only be empty when the caller
supplied the empty list itself (in particular a single supplied callable
always yields a non-empty, one-element sequence). -/
theorem claim_C5_function_invariant_amended (kwargs : List (String × PyVal))
    (c : Condition) (v : PyVal) (h : Condition.init [] kwargs = .ok c)
    (hv : c.function = some v) :
    ∃ l, v = PyVal.pyList l ∧ (∀ g ∈ l, pyCallable g = true) ∧
      (l = [] → dlookup (removeKey kwargs "data_weight") "function" =
        some (PyVal.pyList [])) := by
  rcases init_ok_inversion kwargs c h with ⟨hnone, hc⟩ | ⟨f, hf, hcall, hc⟩
  · subst hc
    rw [show (mkCondition (removeKey kwargs "data_weight")
        ((dlookup kwargs "data_weight").getD (.pyFloat 1))).function =
      dlookup (removeKey kwargs "data_weight") "function" from rfl, hnone] at hv
    exact Option.noConfusion hv
  · subst hc
    rw [show (mkCondition (dictSet (removeKey kwargs "data_weight") "function"
        (if pyIsInstance f .listC then f else .pyList [f]))
        ((dlookup kwargs "data_weight").getD (.pyFloat 1))).function =
      dlookup (dictSet (removeKey kwargs "data_weight") "function"
        (if pyIsInstance f .listC then f else .pyList [f])) "function" from rfl,
      dlookup_dictSet_self] at hv
    have hv' : (if pyIsInstance f .listC then f else .pyList [f]) = v :=
      Option.some.inj hv
    by_cases hlist : pyIsInstance f .listC = true
    · rw [if_pos hlist] at hv'
      rw [if_pos hlist] at hcall
      cases f with
      | pyList gs =>
        refine ⟨gs, hv'.symm, ?_, ?_⟩
        · intro g hg
          exact (firstNonCallable_eq_none_iff (pyElems (PyVal.pyList gs)) 0).mp
            hcall g hg
        · intro hgs
          rw [hf, hgs]
      | labelTensor m => exact Bool.noConfusion hlist
      | location m => exact Bool.noConfusion hlist
      | callableFn m => exact Bool.noConfusion hlist
      | pyFloat q => exact Bool.noConfusion hlist
      | pyStr t => exact Bool.noConfusion hlist
    · rw [if_neg hlist] at hv'
      rw [if_neg hlist] at hcall
      refine ⟨[f], hv'.symm, ?_, ?_⟩
      · intro g hg
        exact (firstNonCallable_eq_none_iff (pyElems (PyVal.pyList [f])) 0).mp
          hcall g hg
      · intro h0
        exact absurd h0 (by simp)

/-- C5 (amended) witness: a single supplied callable is stored as the
non-empty one-element list `[f]`, all of whose elements are callable. -/
theorem claim_C5_witness :
    ∃ l, PyVal.pyList [PyVal.callableFn 7] = PyVal.pyList l ∧
      (∀ g ∈ l, pyCallable g = true) ∧
      (l = [] → dlookup (removeKey [("location", PyVal.location 0),
        ("function", PyVal.callableFn 7)] "data_weight") "function" =
        some (PyVal.pyList [])) :=
  claim_C5_function_invariant_amended [("location", PyVal.location 0),
    ("function", PyVal.callableFn 7)] _ _ (by rfl) (by rfl)

/-- C6: when construction reaches the `function` check and the normalized
sequence has a non-callable element, it fails with the `TypeError` naming
the zero-based index of the FIRST non-callable element; later elements
are never reported. -/
theorem claim_C6_first_noncallable_index (kwargs : List (String × PyVal))
    (f : PyVal) (l : List PyVal) (j : Nat)
    (hshape : sortedKeys (removeKey kwargs "data_weight") =
        sortStrings ["input_points", "output_points"] ∨
      sortedKeys (removeKey kwargs "data_weight") =
        sortStrings ["location", "function"] ∨
      sortedKeys (removeKey kwargs "data_weight") =
        sortStrings ["input_points", "function"])
    (hip : _dictvalue_isinstance (removeKey kwargs "data_weight") "input_points"
      .labelTensorC = true)
    (hop : _dictvalue_isinstance (removeKey kwargs "data_weight") "output_points"
      .labelTensorC = true)
    (hloc : _dictvalue_isinstance (removeKey kwargs "data_weight") "location"
      .locationC = true)
    (hf : dlookup (removeKey kwargs "data_weight") "function" = some f)
    (hl : pyElems (if pyIsInstance f .listC then f else .pyList [f]) = l)
    (hj : j < l.length)
    (hbad : pyCallable (l.get ⟨j, hj⟩) = false)
    (hfirst : ∀ g ∈ l.take j, pyCallable g = true) :
    Condition.init [] kwargs = .error (.functionElemTypeError j) := by
  have hfc : firstNonCallable (pyElems (if pyIsInstance f .listC then f
      else .pyList [f])) 0 = some j := by
    rw [hl]
    have := firstNonCallable_first l 0 j hj hbad hfirst
    simpa using this
  simp only [init_eval_checks_passed kwargs hshape hip hop hloc, hf, hfc]

/-- C6 witness: in `function = [callable, 3.0]` the non-callable element
at index 1 is reported. -/
theorem claim_C6_witness :
    Condition.init [] [("location", PyVal.location 0),
        ("function", PyVal.pyList [PyVal.callableFn 0, PyVal.pyFloat 3])] =
      .error (.functionElemTypeError 1) :=
  claim_C6_first_noncallable_index
    [("location", PyVal.location 0),
      ("function", PyVal.pyList [PyVal.callableFn 0, PyVal.pyFloat 3])]
    (PyVal.pyList [PyVal.callableFn 0, PyVal.pyFloat 3])
    [PyVal.callableFn 0, PyVal.pyFloat 3] 1
    (Or.inr (Or.inl (by rfl))) rfl rfl rfl rfl rfl (by decide) rfl
    (by decide)

/-- C7: with a valid key set, a present `input_points` or `output_points`
that is not a `LabelTensor`, or a present `location` that is not a
`Location`, makes construction fail with the `TypeError` naming that
field and its expected capability, in the fixed check order
`input_points`, `output_points`, `location` (`_dictvalue_isinstance d k cls
= false` says exactly that `k` is present with a value that is not an
instance of `cls`). -/
theorem claim_C7_wrong_field_type (kwargs : List (String × PyVal))
    (hshape : sortedKeys (removeKey kwargs "data_weight") =
        sortStrings ["input_points", "output_points"] ∨
      sortedKeys (removeKey kwargs "data_weight") =
        sortStrings ["location", "function"] ∨
      sortedKeys (removeKey kwargs "data_weight") =
        sortStrings ["input_points", "function"]) :
    (_dictvalue_isinstance (removeKey kwargs "data_weight") "input_points"
        .labelTensorC = false →
      Condition.init [] kwargs = .error (.fieldTypeError "input_points" "torch.Tensor")) ∧
    (_dictvalue_isinstance (removeKey kwargs "data_weight") "input_points"
        .labelTensorC = true →
      _dictvalue_isinstance (removeKey kwargs "data_weight") "output_points"
        .labelTensorC = false →
      Condition.init [] kwargs = .error (.fieldTypeError "output_points" "torch.Tensor")) ∧
    (_dictvalue_isinstance (removeKey kwargs "data_weight") "input_points"
        .labelTensorC = true →
      _dictvalue_isinstance (removeKey kwargs "data_weight") "output_points"
        .labelTensorC = true →
      _dictvalue_isinstance (removeKey kwargs "data_weight") "location"
        .locationC = false →
      Condition.init [] kwargs = .error (.fieldTypeError "location" "Location")) := by
  have hsh : ¬ (sortedKeys (removeKey kwargs "data_weight") ≠
      sortStrings ["input_points", "output_points"] ∧
      sortedKeys (removeKey kwargs "data_weight") ≠
        sortStrings ["location", "function"] ∧
      sortedKeys (removeKey kwargs "data_weight") ≠
        sortStrings ["input_points", "function"]) := fun hc => by
    rcases hshape with h | h | h
    · exact hc.1 h
    · exact hc.2.1 h
    · exact hc.2.2 h
  refine ⟨fun h1 => ?_, fun h1 h2 => ?_, fun h1 h2 h3 => ?_⟩
  · simp only [Condition.init]
    rw [if_neg (by simp), if_neg hsh, if_pos h1]
  · simp only [Condition.init]
    rw [if_neg (by simp), if_neg hsh, if_neg (by simp [h1]), if_pos h2]
  · simp only [Condition.init]
    rw [if_neg (by simp), if_neg hsh, if_neg (by simp [h1]), if_neg (by simp [h2]),
      if_pos h3]

/-- C7 witness: a plain number supplied as `input_points` (next to a valid
`output_points`) is rejected with the `TypeError` naming `input_points`. -/
theorem claim_C7_witness :
    Condition.init [] [("input_points", PyVal.pyFloat 3),
        ("output_points", PyVal.labelTensor 1)] =
      .error (.fieldTypeError "input_points" "torch.Tensor") :=
  (claim_C7_wrong_field_type [("input_points", PyVal.pyFloat 3),
    ("output_points", PyVal.labelTensor 1)] (Or.inl (by rfl))).1 rfl

/-- C2: a field map whose key set (after removing `data_weight`) equals
one of the three allowed variants, with correctly-typed values, constructs
successfully; the populated slots are exactly the supplied keys (a slot is
assigned if and only if its key was supplied) plus `data_weight`, which is
`1.0` when it was not supplied.  Keys not in the matched variant are
absent, not defaulted. -/
theorem claim_C2_valid_success (kwargs : List (String × PyVal))
    (hnd : (kwargs.map Prod.fst).Nodup)
    (hshape : ((removeKey kwargs "data_weight").map Prod.fst).toFinset =
        ({"input_points", "output_points"} : Finset String) ∨
      ((removeKey kwargs "data_weight").map Prod.fst).toFinset =
        ({"location", "function"} : Finset String) ∨
      ((removeKey kwargs "data_weight").map Prod.fst).toFinset =
        ({"input_points", "function"} : Finset String))
    (hip : _dictvalue_isinstance (removeKey kwargs "data_weight") "input_points"
      .labelTensorC = true)
    (hop : _dictvalue_isinstance (removeKey kwargs "data_weight") "output_points"
      .labelTensorC = true)
    (hloc : _dictvalue_isinstance (removeKey kwargs "data_weight") "location"
      .locationC = true)
    (hfn : functionValueOk (removeKey kwargs "data_weight") = true) :
    ∃ c, Condition.init [] kwargs = .ok c ∧
      (c.input_points.isSome = true ↔
        "input_points" ∈ (removeKey kwargs "data_weight").map Prod.fst) ∧
      (c.output_points.isSome = true ↔
        "output_points" ∈ (removeKey kwargs "data_weight").map Prod.fst) ∧
      (c.location.isSome = true ↔
        "location" ∈ (removeKey kwargs "data_weight").map Prod.fst) ∧
      (c.function.isSome = true ↔
        "function" ∈ (removeKey kwargs "data_weight").map Prod.fst) ∧
      ("data_weight" ∉ kwargs.map Prod.fst → c.data_weight = PyVal.pyFloat 1) := by
  have hnd' := nodup_keys_removeKey kwargs "data_weight" hnd
  have hsorted : sortedKeys (removeKey kwargs "data_weight") =
      sortStrings ["input_points", "output_points"] ∨
    sortedKeys (removeKey kwargs "data_weight") =
      sortStrings ["location", "function"] ∨
    sortedKeys (removeKey kwargs "data_weight") =
      sortStrings ["input_points", "function"] := by
    rcases hshape with h | h | h
    · exact Or.inl (sortStrings_eq_of_nodup_toFinset _ _ hnd' (by decide)
        (by rw [toFinset_pair]; exact h))
    · exact Or.inr (Or.inl (sortStrings_eq_of_nodup_toFinset _ _ hnd' (by decide)
        (by rw [toFinset_pair]; exact h)))
    · exact Or.inr (Or.inr (sortStrings_eq_of_nodup_toFinset _ _ hnd' (by decide)
        (by rw [toFinset_pair]; exact h)))
  have heval := init_eval_checks_passed kwargs hsorted hip hop hloc
  rcases hlook : dlookup (removeKey kwargs "data_weight") "function" with _ | f
  · simp only [hlook] at heval
    refine ⟨_, heval, ?_, ?_, ?_, ?_, ?_⟩
    · exact dlookup_isSome_iff _ _
    · exact dlookup_isSome_iff _ _
    · exact dlookup_isSome_iff _ _
    · show (dlookup (removeKey kwargs "data_weight") "function").isSome = true ↔ _
      exact dlookup_isSome_iff _ _
    · intro hdw
      show (dlookup kwargs "data_weight").getD (PyVal.pyFloat 1) = PyVal.pyFloat 1
      rw [(dlookup_eq_none_iff _ _).mpr hdw]
      rfl
  · simp only [functionValueOk, hlook] at hfn
    have hfc : firstNonCallable (pyElems (if pyIsInstance f .listC then f
        else .pyList [f])) 0 = none :=
      (firstNonCallable_eq_none_iff _ _).mpr (by
        intro g hg
        exact (List.all_eq_true.mp hfn) g hg)
    simp only [hlook, hfc] at heval
    have hmem : "function" ∈ (removeKey kwargs "data_weight").map Prod.fst :=
      (dlookup_isSome_iff _ _).mp (by rw [hlook]; rfl)
    refine ⟨_, heval, ?_, ?_, ?_, ?_, ?_⟩
    · show (dlookup (dictSet (removeKey kwargs "data_weight") "function" _)
        "input_points").isSome = true ↔ _
      rw [dlookup_dictSet_ne _ _ _ _ (by decide)]
      exact dlookup_isSome_iff _ _
    · show (dlookup (dictSet (removeKey kwargs "data_weight") "function" _)
        "output_points").isSome = true ↔ _
      rw [dlookup_dictSet_ne _ _ _ _ (by decide)]
      exact dlookup_isSome_iff _ _
    · show (dlookup (dictSet (removeKey kwargs "data_weight") "function" _)
        "location").isSome = true ↔ _
      rw [dlookup_dictSet_ne _ _ _ _ (by decide)]
      exact dlookup_isSome_iff _ _
    · show (dlookup (dictSet (removeKey kwargs "data_weight") "function" _)
        "function").isSome = true ↔ _
      rw [dlookup_dictSet_self]
      simp [hmem]
    · intro hdw
      show (dlookup kwargs "data_weight").getD (PyVal.pyFloat 1) = PyVal.pyFloat 1
      rw [(dlookup_eq_none_iff _ _).mpr hdw]
      rfl

/-- C2 witness: the supervised variant with two tensors succeeds, exposes
`input_points` and `output_points`, leaves `location` and `function`
unset, and defaults `data_weight` to `1.0`. -/
theorem claim_C2_witness :
    ∃ c, Condition.init [] [("input_points", PyVal.labelTensor 0),
        ("output_points", PyVal.labelTensor 1)] = .ok c ∧
      (c.input_points.isSome = true ↔
        "input_points" ∈ (removeKey [("input_points", PyVal.labelTensor 0),
          ("output_points", PyVal.labelTensor 1)] "data_weight").map Prod.fst) ∧
      (c.output_points.isSome = true ↔
        "output_points" ∈ (removeKey [("input_points", PyVal.labelTensor 0),
          ("output_points", PyVal.labelTensor 1)] "data_weight").map Prod.fst) ∧
      (c.location.isSome = true ↔
        "location" ∈ (removeKey [("input_points", PyVal.labelTensor 0),
          ("output_points", PyVal.labelTensor 1)] "data_weight").map Prod.fst) ∧
      (c.function.isSome = true ↔
        "function" ∈ (removeKey [("input_points", PyVal.labelTensor 0),
          ("output_points", PyVal.labelTensor 1)] "data_weight").map Prod.fst) ∧
      ("data_weight" ∉ ([("input_points", PyVal.labelTensor 0),
          ("output_points", PyVal.labelTensor 1)].map Prod.fst) →
        c.data_weight = PyVal.pyFloat 1) :=
  claim_C2_valid_success [("input_points", PyVal.labelTensor 0),
    ("output_points", PyVal.labelTensor 1)] (by decide) (Or.inl (by decide))
    rfl rfl rfl rfl

end Pina
